import Mathlib

set_option maxRecDepth 8000
set_option maxHeartbeats 2000000

namespace CryptoReport

/-! # Shallow embedding of the crypto-report portfolio aggregator

The embedding follows `src/portfolio.py` and `src/apis.py`.  Pandas DataFrames
are modelled as lists of rows of cells; floats are modelled as rationals;
Python exceptions are modelled with `Except`.

Two ambient-semantics choices, recorded once here:

* Chained row assignment `df.loc[key][col] = v` is modelled as a persisting
  write.  The balance frame holds a single float64 block (all data columns are
  numeric), for which the row cross-section is a view of the block, so the
  write reaches the frame.  The spec also names the persisting write as the
  intended contract.

* `Series.sort_values()` delegates to numpy quicksort, which is documented as
  not stable.  The code therefore only guarantees that the output is some
  permutation of the input sorted by value; the model for the worst/best-day
  claim quantifies over exactly those outputs.
-/

/-- A pandas cell: a string label, a float (modelled as a rational), or NaN. -/
inductive Val where
  | str (s : String)
  | num (q : ℚ)
  | na
deriving DecidableEq, Repr

/-- Cell multiplication as pandas performs it on numeric columns: a missing
operand propagates NaN. -/
def Val.mul : Val → Val → Val
  | .num a, .num b => .num (a * b)
  | _, _ => .na

/-- A range-indexed pandas DataFrame: column names plus rows of cells, each
row aligned with `cols`. -/
structure DF where
  cols : List String
  rows : List (List Val)
deriving DecidableEq, Repr

/-- Python exceptions raised by the code paths that the claims touch. -/
inductive PyErr where
  | keyError
  | nameError
  | assertionError
  | httpError
  | indexError
  | valueError
  | typeError
  | notImplementedError
deriving DecidableEq, Repr

instance {ε α : Type} [DecidableEq ε] [DecidableEq α] : DecidableEq (Except ε α) := fun a b =>
  match a, b with
  | .ok x, .ok y =>
    if h : x = y then .isTrue (by rw [h])
    else .isFalse (fun hc => h (by injection hc))
  | .error x, .error y =>
    if h : x = y then .isTrue (by rw [h])
    else .isFalse (fun hc => h (by injection hc))
  | .ok _, .error _ => .isFalse (fun hc => Except.noConfusion hc)
  | .error _, .ok _ => .isFalse (fun hc => Except.noConfusion hc)

/-- A Python `for` loop that builds a list and may raise: structural analogue
of `mapM` over `Except`, kept non-tail-recursive so proofs can use plain
induction. -/
def mapE {α β : Type} (f : α → Except PyErr β) : List α → Except PyErr (List β)
  | [] => .ok []
  | a :: l =>
    match f a with
    | .error e => .error e
    | .ok b =>
      match mapE f l with
      | .error e => .error e
      | .ok bs => .ok (b :: bs)

/-- Concatenation of the lists produced for each element. -/
def concatMap {α β : Type} (l : List α) (f : α → List β) : List β :=
  l.foldr (fun a acc => f a ++ acc) []

/-- Read the cell of `row` under column `c` (NaN when `c` is not a column). -/
def getCell (cols : List String) (row : List Val) (c : String) : Val :=
  match cols.findIdx? (fun x => decide (x = c)) with
  | some i => row.getD i Val.na
  | none => Val.na

/-- Overwrite the cell of `row` under column `c` (no-op when `c` is absent;
all modelled writes target existing columns). -/
def setCellRow (cols : List String) (row : List Val) (c : String) (v : Val) : List Val :=
  match cols.findIdx? (fun x => decide (x = c)) with
  | some i => row.set i v
  | none => row

/-- `pd.merge(l, r, how='outer')`: join on the columns common to both frames
(NaN keys match NaN keys, as pandas merge does).  Result columns are the left
columns followed by the right-only columns; rows are the left rows (each
paired with every matching right row, or padded with NaN) followed by the
unmatched right rows. -/
def mergeOuter (l r : DF) : DF :=
  let join := l.cols.filter (fun c => r.cols.contains c)
  let rOnly := r.cols.filter (fun c => ¬ l.cols.contains c)
  let keyOf := fun (cols : List String) (row : List Val) => join.map (getCell cols row)
  let leftPart := concatMap l.rows (fun lr =>
    let ms := r.rows.filter (fun rr => decide (keyOf r.cols rr = keyOf l.cols lr))
    if ms.isEmpty then [lr ++ rOnly.map (fun _ => Val.na)]
    else ms.map (fun rr => lr ++ rOnly.map (getCell r.cols rr)))
  let rightPart := (r.rows.filter (fun rr =>
      l.rows.all (fun lr => decide (¬ keyOf r.cols rr = keyOf l.cols lr)))).map
    (fun rr =>
      l.cols.map (fun c => if r.cols.contains c then getCell r.cols rr c else Val.na)
        ++ rOnly.map (getCell r.cols rr))
  ⟨l.cols ++ rOnly, leftPart ++ rightPart⟩

/-- A DataFrame indexed by `set_index(keys)`: the key columns move out of the
data columns, and each row splits into (index cells, data cells). -/
structure IDF where
  ikeys : List String
  icols : List String
  irows : List (List Val × List Val)
deriving DecidableEq, Repr

/-- `df.set_index(ks)`. -/
def setIndex (df : DF) (ks : List String) : IDF :=
  let dcols := df.cols.filter (fun c => ¬ ks.contains c)
  ⟨ks, dcols,
   df.rows.map (fun r => (ks.map (getCell df.cols r), dcols.map (getCell df.cols r)))⟩

/-- `pd.merge` ignores the index of its operands: viewing an indexed frame as
a plain frame drops the index, as pandas does. -/
def idfToDF (idf : IDF) : DF := ⟨idf.icols, idf.irows.map Prod.snd⟩

/-- `api in df.index` on a two-level MultiIndex: membership in the first
level. -/
def levelMem (idf : IDF) (api : String) : Bool :=
  idf.irows.any (fun r => decide (r.1.head? = some (Val.str api)))

/-- `df.loc[key]` on the index: the data cells of the first row whose index
cells equal `key` (`none` models KeyError). -/
def locGet (idf : IDF) (k : List Val) : Option (List Val) :=
  (idf.irows.find? (fun r => decide (r.1 = k))).map Prod.snd

/-- `df.loc[key][col] = v`, modelled as a persisting write (see the header
note): the cell under `col` of every row keyed `key` is overwritten. -/
def locSetCell (idf : IDF) (k : List Val) (c : String) (v : Val) : IDF :=
  ⟨idf.ikeys, idf.icols,
   idf.irows.map (fun r => if r.1 = k then (r.1, setCellRow idf.icols r.2 c v) else r)⟩

/-- `df[c] = f(row)`: replace the column if present, else append it.  The
update is computed from the row before the write, as the right-hand side of
the pandas assignment is. -/
def setCol (idf : IDF) (c : String) (f : List Val → Val) : IDF :=
  if idf.icols.contains c then
    ⟨idf.ikeys, idf.icols, idf.irows.map (fun r => (r.1, setCellRow idf.icols r.2 c (f r.2)))⟩
  else
    ⟨idf.ikeys, idf.icols ++ [c], idf.irows.map (fun r => (r.1, r.2 ++ [f r.2]))⟩

/-- `del df[c]` (only reached when the column exists). -/
def delCol (idf : IDF) (c : String) : IDF :=
  match idf.icols.findIdx? (fun x => decide (x = c)) with
  | some i => ⟨idf.ikeys, idf.icols.eraseIdx i, idf.irows.map (fun r => (r.1, r.2.eraseIdx i))⟩
  | none => idf

/-- `df[c].sum()`: NaN cells are skipped, as pandas sums do. -/
def colSum (idf : IDF) (c : String) : ℚ :=
  idf.irows.foldl
    (fun acc r => match getCell idf.icols r.2 c with
      | .num q => acc + q
      | _ => acc) 0

/-! ## apis.py: the source adapters the core consumes -/

/-- `Kraken.clean_ticker`: strip the X/Z prefix of 4-letter Kraken codes
(`len(ticker) == 4 and ticker[0] in ('X', 'Z')`, then `ticker[1:]`). -/
def cleanTicker (t : String) : String :=
  if t.data.length = 4 ∧ (t.data.head? = some 'X' ∨ t.data.head? = some 'Z') then ⟨t.data.tail⟩
  else t

/-- `ticker.endswith('.S')`, written on the character list. -/
def endsWithDotS (t : String) : Bool := decide (t.data.reverse.take 2 = ['S', '.'])

/-- `ticker[:-2]`, written on the character list. -/
def dropLast2 (t : String) : String := ⟨t.data.dropLast.dropLast⟩

/-- `Kraken.get_price`.  `quote p` is the last-trade price the Ticker endpoint
reports for pair `p` (`none` models a failing query, which raises). -/
def krakenGetPrice (quote : String → Option ℚ) (ticker base_fiat base_crypto : String) :
    Except PyErr (ℚ × ℚ) :=
  if ticker = "EUR" ∨ ticker = "USD" then
    if base_crypto ≠ "" then .ok (1, 1) else .ok (1, 0)
  else
    let t := if endsWithDotS ticker then dropLast2 ticker else ticker
    match quote (t ++ base_fiat) with
    | none => .error .httpError
    | some fiat_price =>
      if base_crypto = "" then .ok (fiat_price, 0)
      else if base_crypto = t then .ok (fiat_price, 1)
      else if base_crypto = "ETH" ∧ t = "XBT" then
        match quote "ETHXBT" with
        | none => .error .httpError
        | some q => .ok (fiat_price, 1 / q)
      else
        match quote (t ++ base_crypto) with
        | none => .error .httpError
        | some q => .ok (fiat_price, q)

/-- Insertion into a Python dict built by iteration: a repeated key keeps its
first position and takes the latest value. -/
def dictInsert (l : List (String × ℚ)) (k : String) (v : ℚ) : List (String × ℚ) :=
  if l.any (fun p => decide (p.1 = k)) then l.map (fun p => if p.1 = k then (k, v) else p)
  else l ++ [(k, v)]

/-- The balance dict of `Kraken.get_balance`: drop zero amounts, clean each
ticker, then pop the KFEE entry. -/
def krakenCleanBalance (raw : List (String × ℚ)) : List (String × ℚ) :=
  (((raw.filter (fun p => decide (p.2 ≠ 0))).foldl
      (fun acc p => dictInsert acc (cleanTicker p.1) p.2) []).filter
    (fun p => decide (p.1 ≠ "KFEE")))

/-- `Kraken.get_balance`: BTC is renamed XBT for the price queries, every
remaining entry is priced with `get_price`, and the rows are assembled into
the frame with columns API/Asset/Amount/price_f/price_c.  The unpriced branch
(no fiat and no crypto numeraire) mismatches the four column names and is
modelled as the ValueError it raises. -/
def krakenGetBalance (quote : String → Option ℚ) (raw : List (String × ℚ))
    (base_fiat base_crypto : String) : Except PyErr DF :=
  let bc := if base_crypto = "BTC" then "XBT" else base_crypto
  let bal := krakenCleanBalance raw
  if base_fiat = "" ∧ bc = "" then .error .valueError
  else do
    let rows ← mapE (fun p => do
      let pr ← krakenGetPrice quote p.1 base_fiat bc
      pure [Val.str "Kraken", Val.str p.1, Val.num p.2, Val.num pr.1, Val.num pr.2]) bal
    pure ⟨["API", "Asset", "Amount", "price_f", "price_c"], rows⟩

/-- A Bitfinex REST fetch: `quotes m` is the array the endpoint `m` returns
(`none` models a non-2xx response, which raises HTTPError). -/
def bitfinexFetch (quotes : String → Option (List ℚ)) (method : String) :
    Except PyErr (List ℚ) :=
  match quotes method with
  | none => .error .httpError
  | some l => .ok l

/-- Python list indexing with IndexError. -/
def listIdx (l : List ℚ) (i : ℕ) : Except PyErr ℚ :=
  match l.get? i with
  | some q => .ok q
  | none => .error .indexError

/-- The fiat-price block of `Bitfinex.get_price` (lines 365-374): fetch the
direct pair, and on a catchable HTTPError fall back to the USD pivot. -/
def bitfinexFiatPrice (quotes : String → Option (List ℚ)) (ticker base_fiat base_crypto : String) :
    Except PyErr ℚ :=
  match bitfinexFetch quotes ("ticker/t" ++ ticker ++ base_fiat) with
  | .ok l => listIdx l 6
  | .error .httpError =>
    if base_crypto ≠ "USD" then do
      let la ← bitfinexFetch quotes ("ticker/t" ++ ticker ++ "USD")
      let a ← listIdx la 6
      let lb ← bitfinexFetch quotes ("ticker/t" ++ base_fiat ++ "USD")
      let b ← listIdx lb 0
      pure (a / b)
    else Except.error .httpError
  | .error e => Except.error e

/-- `Bitfinex.get_price`, including the USD-pivot fallback that catches only
the HTTPError of the first fetch. -/
def bitfinexGetPrice (quotes : String → Option (List ℚ)) (ticker base_fiat base_crypto : String) :
    Except PyErr (ℚ × ℚ) :=
  if ticker = "EUR" ∨ ticker = "USD" then
    if base_crypto ≠ "" then .ok (1, 1) else .ok (1, 0)
  else do
    let fiat_price ← bitfinexFiatPrice quotes ticker base_fiat base_crypto
    if base_crypto = "" then pure (fiat_price, 0)
    else if base_crypto = ticker then pure (fiat_price, 1)
    else if base_crypto = "ETH" ∧ ticker = "BTC" then do
      let l ← bitfinexFetch quotes ("ticker/t" ++ base_crypto ++ ticker)
      let q ← listIdx l 6
      pure (fiat_price, 1 / q)
    else do
      let l ← bitfinexFetch quotes ("ticker/t" ++ ticker ++ base_crypto)
      let q ← listIdx l 6
      pure (fiat_price, q)

/-- `Etherscan.get_balance`: one ETH row with the wei balance scaled by 1e18
and zero placeholder prices. -/
def etherscanGetBalance (wei : ℚ) : DF :=
  ⟨["API", "Asset", "Amount", "price_f", "price_c"],
   [[Val.str "Etherscan", Val.str "ETH", Val.num (wei / 1000000000000000000),
     Val.num 0, Val.num 0]]⟩

/-! ## portfolio.py -/

def BASE_FIATS : List String := ["USD", "EUR"]
def BASE_CRYPTOS : List String := ["BTC", "ETH"]
def API_SOURCES : List String := ["Kraken", "Bitfinex", "Etherscan", "Blockchain"]

/-- Python `str.upper`, written on the character list. -/
def pyUpper (s : String) : String := ⟨s.data.map Char.toUpper⟩

/-- Python `str.capitalize`: first character upper-cased, the rest lower-cased. -/
def pyCapitalize (s : String) : String :=
  match s.data with
  | [] => ""
  | c :: rest => ⟨c.toUpper :: rest.map Char.toLower⟩

/-- One configured source tuple `(name, path[, path2])`, keeping the name and
the number of path components (tuple arity minus one). -/
structure SourceSpec where
  name : String
  files : ℕ
deriving DecidableEq, Repr

/-- The adapter classes that `apis.py` actually defines. -/
inductive Adapter where
  | kraken
  | bitfinex
  | etherscan
deriving DecidableEq, Repr

/-- `eval(name)(path1[, path2])`: resolve the capitalized source name against
the classes `apis.py` defines, then call the constructor on `files` path
arguments.  The name Blockchain is imported by `portfolio.py` and recognized
by the configuration check, but `apis.py` defines no such class, so its
resolution fails before any call.  Kraken and Bitfinex inherit the one-path
`Api.__init__(self, path='')`, so calling them with two paths raises
TypeError; `Etherscan.__init__(self, key_path=..., addr_path=...)` accepts
one or two. -/
def constructAdapter (n : String) (files : ℕ) : Except PyErr Adapter :=
  if n = "Kraken" then
    if files = 1 then .ok .kraken else .error .typeError
  else if n = "Bitfinex" then
    if files = 1 then .ok .bitfinex else .error .typeError
  else if n = "Etherscan" then .ok .etherscan
  else .error .nameError

/-- The state `Portfolio.__init__` establishes. -/
structure PortfolioCfg where
  base_fiat : String
  base_crypto : String
  adapters : List Adapter
deriving DecidableEq, Repr

/-- Collect the two adapter construction passes (the one-file comprehension,
then the two-file loop); the first raised error aborts `__init__`. -/
def combineAdapters (r1 r2 : Except PyErr (List Adapter)) (F C : String) :
    Except PyErr PortfolioCfg :=
  match r1, r2 with
  | .ok a1, .ok a2 => .ok ⟨F, C, a1 ++ a2⟩
  | .error e, _ => .error e
  | _, .error e => .error e

/-- `Portfolio.__init__`: upper-case and check the fiat, the optional crypto,
and every source name (AssertionError on failure — the ConfigurationError of
the spec), then build adapters for the two-element tuples and after them for
the three-element tuples; tuples of any other arity are silently skipped. -/
def portfolioInit (cfg : List SourceSpec) (base_fiat base_crypto : String) :
    Except PyErr PortfolioCfg :=
  let F := pyUpper base_fiat
  if F ∈ BASE_FIATS then
    let C := pyUpper base_crypto
    if C = "" ∨ C ∈ BASE_CRYPTOS then
      if cfg.all (fun s => decide (pyCapitalize s.name ∈ API_SOURCES)) then
        combineAdapters
          (mapE (fun s => constructAdapter (pyCapitalize s.name) s.files)
            (cfg.filter (fun s => decide (s.files = 1))))
          (mapE (fun s => constructAdapter (pyCapitalize s.name) s.files)
            (cfg.filter (fun s => decide (s.files = 2))))
          F C
      else .error .assertionError
    else .error .assertionError
  else .error .assertionError

/-- The market data a throwaway reference-adapter session sees during the
live-price fallback of `set_address_prices`. -/
structure Env where
  krakenQuote : String → Option ℚ
  bitfinexQuotes : String → Option (List ℚ)

/-- `eval(ref_api)().get_price(...)`: dispatch the live price call on the
reference source name; a name without a usable `get_price` raises. -/
def refGetPrice (env : Env) (refSource ticker base_fiat base_crypto : String) :
    Except PyErr (ℚ × ℚ) :=
  if refSource = "Kraken" then krakenGetPrice env.krakenQuote ticker base_fiat base_crypto
  else if refSource = "Bitfinex" then bitfinexGetPrice env.bitfinexQuotes ticker base_fiat base_crypto
  else .error .nameError

/-- `Portfolio.set_address_prices`.  The try block copies the reference price
into the address row, then, when the asset is not the crypto numeraire, reads
`self.balance[(ref_api, crypto)]` — a column-axis lookup with a tuple key on a
frame whose columns are the plain strings Amount/price_f/price_c, so that read
raises KeyError for every ledger.  The except branch then prices the row by a
live `get_price` on a throwaway reference adapter, overwriting the price_f
cell the try block may already have written (so resuming from the original
frame is equivalent). -/
def setAddressPrices (env : Env) (base_fiat base_crypto : String) (api refA : String)
    (b : IDF) : Except PyErr IDF :=
  let cryptoOf : Except PyErr String :=
    if api = "Etherscan" then .ok "ETH"
    else if api = "Blockchain" then .ok "BTC"
    else .error .notImplementedError
  match cryptoOf with
  | .error e => .error e
  | .ok crypto =>
    let key : List Val := [Val.str api, Val.str crypto]
    let tryResult : Except PyErr IDF :=
      match locGet b [Val.str refA, Val.str crypto] with
      | none => .error .keyError
      | some refRow =>
        let b1 := locSetCell b key "price_f" (getCell b.icols refRow "price_f")
        if base_crypto = crypto then .ok (locSetCell b1 key "price_c" (Val.num 1))
        else .error .keyError
    match tryResult with
    | .ok b2 => .ok b2
    | .error .keyError =>
      match refGetPrice env refA crypto base_fiat base_crypto with
      | .error e => .error e
      | .ok pr =>
        let b1 := locSetCell b key "price_f" (Val.num pr.1)
        .ok (locSetCell b1 key "price_c" (Val.num pr.2))
    | .error e => .error e

/-- How `self.balance` is stored: the flat empty frame from `__init__`, or the
indexed frame a completed `get_balance` leaves behind. -/
inductive BalRep where
  | flat (df : DF)
  | indexed (idf : IDF)
deriving DecidableEq, Repr

/-- The mutable attributes of a `Portfolio` the modelled methods touch. -/
structure PfState where
  base_fiat : String
  base_crypto : String
  bal : BalRep
  refApi : Option String
  simple : Option IDF
  totalFiat : Option ℚ
  totalCrypto : Option ℚ
deriving DecidableEq, Repr

/-- The state right after a successful `Portfolio.__init__`. -/
def initState (base_fiat base_crypto : String) : PfState :=
  ⟨base_fiat, base_crypto,
   .flat ⟨["Asset", "Amount", "price_f", "price_c"], []⟩,
   none, none, none, none⟩

/-- `Portfolio.get_balance`.  `fetches` are the frames the configured source
adapters return, in order; the loop outer-merges each into `self.balance`
without ever resetting it.  After indexing on (API, Asset) the address rows
are priced through `set_address_prices`, the value columns are derived, and
the totals summed. -/
def getBalance (env : Env) (fetches : List DF) (st : PfState) (refArg : String) :
    Except PyErr (PfState × IDF) := do
  let start : DF :=
    match st.bal with
    | .flat d => d
    | .indexed i => idfToDF i
  let merged := fetches.foldl (fun acc f => mergeOuter f acc) start
  let b0 := setIndex merged ["API", "Asset"]
  let hasEth := levelMem b0 "Etherscan"
  let hasBtc := levelMem b0 "Blockchain"
  let refA ←
    if hasEth || hasBtc then
      if refArg = "" then pure (some "Kraken")
      else if refArg = "Etherscan" ∨ refArg = "Blockchain" then Except.error PyErr.assertionError
      else pure (some refArg)
    else pure st.refApi
  let b1 ←
    if hasEth then setAddressPrices env st.base_fiat st.base_crypto "Etherscan" (refA.getD "") b0
    else pure b0
  let b2 ←
    if hasBtc then setAddressPrices env st.base_fiat st.base_crypto "Blockchain" (refA.getD "") b1
    else pure b1
  let b3 := setCol b2 "value_f"
    (fun r => Val.mul (getCell b2.icols r "Amount") (getCell b2.icols r "price_f"))
  let b4 :=
    if st.base_crypto ≠ "" then
      setCol b3 "value_c"
        (fun r => Val.mul (getCell b3.icols r "Amount") (getCell b3.icols r "price_c"))
    else delCol b3 "price_c"
  let st1 : PfState :=
    { st with
      bal := .indexed b4
      refApi := refA
      totalFiat := some (colSum b4 "value_f")
      totalCrypto := if st.base_crypto ≠ "" then some (colSum b4 "value_c") else st.totalCrypto }
  pure (st1, b4)

/-- Is a row significant: its value_f cell is a number at least `t`
(a NaN cell compares false and is dropped, as in pandas). -/
def sigRow (cols : List String) (t : ℚ) (r : List Val × List Val) : Bool :=
  match getCell cols r.2 "value_f" with
  | .num q => t ≤ q
  | _ => false

/-- `self.balance.loc[self.balance['value_f'] >= threshold]`: the filtered
copy, leaving the ledger untouched. -/
def filterSignificant (b : IDF) (t : ℚ) : IDF :=
  ⟨b.ikeys, b.icols, b.irows.filter (sigRow b.icols t)⟩

/-- `Portfolio.get_simple_balance` on an already aggregated balance `b` with
cache attribute `cache`: the filter runs only when no cache exists, and the
cache, once set, is returned unchanged by every later call whatever the
current balance or threshold.  (The branch that aggregates an empty balance
first is outside this model, which takes the built ledger as input.) -/
def getSimpleBalance (b : IDF) (cache : Option IDF) (t : ℚ) : IDF × Option IDF :=
  match cache with
  | some s => (s, some s)
  | none =>
    let s := filterSignificant b t
    (s, some s)

/-- The `ref_api` bookkeeping at the top of `Portfolio.get_risk` (lines
188-194): the stored attribute survives any non-empty conflicting argument,
and defaults to Kraken only when neither exists. -/
def getRiskRef (stored : Option String) (arg : String) : Option String :=
  if arg ≠ "" ∧ stored = none then some arg
  else if arg ≠ "" ∧ stored ≠ some arg then stored
  else if arg = "" ∧ stored = none then some "Kraken"
  else stored

/-- The per-asset volatility table, keyed by (API, Asset). -/
abbrev VolTable : Type := List ((String × String) × ℚ)

def volLookup (v : VolTable) (k : String × String) : Option ℚ :=
  (List.find? (fun p => decide (p.1 = k)) v).map Prod.snd

/-- `vols.loc[key, :] = q`: a full-form loc write, which persists and enlarges
the table with a new row when the key is absent. -/
def volSet (v : VolTable) (k : String × String) (q : ℚ) : VolTable :=
  if (List.any v (fun p => decide (p.1 = k))) then
    List.map (fun p => if p.1 = k then (k, q) else p) v
  else v ++ [(k, q)]

/-- Lines 226-229 of `get_risk`: substitute the volatility rows of the
address-type holdings from the row keyed by the `ref_api` ARGUMENT (not the
stored `self.ref_api`); a missing key raises KeyError. -/
def volsAddressSubst (arg : String) (hasEth hasBtc : Bool) (vols : VolTable) :
    Except PyErr VolTable := do
  let v1 ←
    if hasEth then
      match volLookup vols (arg, "ETH") with
      | none => Except.error PyErr.keyError
      | some q => pure (volSet vols ("Etherscan", "ETH") q)
    else pure vols
  if hasBtc then
    match volLookup v1 (arg, "BTC") with
    | none => Except.error PyErr.keyError
    | some q => pure (volSet v1 ("Blockchain", "BTC") q)
  else pure v1

/-- The `get_risk` fragment the reference-argument claim is about: update the
stored reference (lines 188-194), then run the volatility substitution with
the raw argument (lines 226-229). -/
def getRiskVolsStep (stored : Option String) (arg : String) (simple : IDF) (vols : VolTable) :
    Except PyErr (Option String × VolTable) := do
  let stored1 := getRiskRef stored arg
  let v ← volsAddressSubst arg (levelMem simple "Etherscan") (levelMem simple "Blockchain") vols
  pure (stored1, v)

/-! ## Risk-series arithmetic (lines 218-275 of portfolio.py) -/

/-- `ret.iloc[-21:-1]` on one return series: the window the 20-day volatility
is computed over. -/
def volWindowCode (ret : List ℚ) : List ℚ := (ret.drop (ret.length - 21)).dropLast

/-- The code's percentage volatility, parametric in the standard-deviation
function both the code and the spec apply to the chosen window. -/
def volPctCode (stdFn : List ℚ → ℚ) (ret : List ℚ) : ℚ := stdFn (volWindowCode ret)

/-- `vols['vol_fiat'] = vols['vol_pct'] * simple_balance['value_f']` for one
holding. -/
def volFiatCode (stdFn : List ℚ → ℚ) (ret : List ℚ) (value_f : ℚ) : ℚ :=
  volPctCode stdFn ret * value_f

/-- Modelled from the spec words: the 20 most recent daily return observations
preceding the latest one — the suffix of length 20 of the series with its
final point removed. -/
def trailingWindowSpec (ret : List ℚ) : List ℚ :=
  ret.dropLast.drop (ret.dropLast.length - 20)

/-- The mean of a pandas Series: NaN (modelled `none`) when empty. -/
def listMean (l : List ℚ) : Option ℚ :=
  if l.isEmpty then none else some (l.sum / l.length)

/-- `int(len(totals) * 0.025)`: float truncation toward zero of a
non-negative product, i.e. the floor. -/
def esCount (n : ℕ) : ℕ := ⌊(n : ℚ) * (25 / 1000)⌋₊

/-- The expected-shortfall computation of lines 270/272: sort the P&L series
ascending, keep the first `int(N * 0.025)` observations, average them.  The
sort stands in for `sort_values`; any sorting permutation yields the same
value sequence, hence the same mean. -/
def expectedShortfallCode (pnl : List ℚ) : Option ℚ :=
  let sorted := List.insertionSort (· ≤ ·) pnl
  listMean (sorted.take (esCount pnl.length))

/-- Modelled from the spec words: the k smallest values of the series, read
off a canonical sorted arrangement of its multiset. -/
def smallestValues (pnl : List ℚ) (k : ℕ) : List ℚ :=
  (Multiset.sort (· ≤ ·) (↑pnl : Multiset ℚ)).take k

/-- One dated P&L observation. -/
structure Obs where
  date : ℕ
  val : ℚ
deriving DecidableEq, Repr

/-- The outputs `totals.sort_values()` can produce: numpy quicksort guarantees
a permutation of the series that is sorted by value, and nothing more (it is
not stable). -/
def isSortValuesOutput (l sorted : List Obs) : Prop :=
  sorted.Perm l ∧ sorted.Pairwise (fun a b => a.val ≤ b.val)

instance (l sorted : List Obs) : Decidable (isSortValuesOutput l sorted) :=
  inferInstanceAs (Decidable (_ ∧ _))

/-- Modelled from the spec words: the date of the first occurrence of the
minimum of the series. -/
def firstMinDate (l : List Obs) : Option ℕ :=
  (l.find? (fun o => l.all (fun p => decide (o.val ≤ p.val)))).map Obs.date

/-! ## Concrete instances the claim analyses evaluate the model on -/

def cols5 : List String := ["API", "Asset", "Amount", "price_f", "price_c"]

/-- Live ETH quotes the throwaway Kraken session of the fallback sees: the
market moved to 29 between the balance fetch (30) and the fallback. -/
def c1Quote : String → Option ℚ := fun p =>
  if p = "ETHUSD" then some 29 else if p = "ETHBTC" then some 2 else none

def c1Env : Env := ⟨c1Quote, fun _ => none⟩

/-- A mid-aggregation ledger: an unpriced Etherscan ETH row next to the
reference Kraken ETH row priced at 30 USD. -/
def c1Balance : IDF :=
  ⟨["API", "Asset"], ["Amount", "price_f", "price_c"],
   [([Val.str "Etherscan", Val.str "ETH"], [Val.num 2, Val.num 0, Val.num 0]),
    ([Val.str "Kraken", Val.str "ETH"], [Val.num 1, Val.num 30, Val.num 2])]⟩

def c1After : Except PyErr IDF :=
  setAddressPrices c1Env "USD" "BTC" "Etherscan" "Kraken" c1Balance

/-- The price_f cell of the Etherscan row after the resolution pass. -/
def c1EthPriceF : Except PyErr Val :=
  c1After.map (fun b => getCell b.icols ((locGet b [Val.str "Etherscan", Val.str "ETH"]).getD []) "price_f")

def dfKraken2 : DF :=
  ⟨cols5, [[Val.str "Kraken", Val.str "XBT", Val.num 2, Val.num 6, Val.num 1]]⟩

def dfBitfinex2 : DF :=
  ⟨cols5, [[Val.str "Bitfinex", Val.str "ETH", Val.num 3, Val.num 5, Val.num 2]]⟩

/-- An environment with no live market data: none of the runs below reach the
live-price fallback. -/
def emptyEnv : Env := ⟨fun _ => none, fun _ => none⟩

/-- First aggregation of a two-exchange portfolio. -/
def c2Run1 : Except PyErr (PfState × IDF) :=
  getBalance emptyEnv [dfKraken2, dfBitfinex2] (initState "USD" "BTC") ""

/-- Second aggregation of the same portfolio, the sources returning the exact
same frames. -/
def c2Run2 : Except PyErr (PfState × IDF) :=
  c2Run1 >>= fun r => getBalance emptyEnv [dfKraken2, dfBitfinex2] r.1 ""

/-- Kraken market data for the self-referential price analysis: the
hypothetical BTC/XBT cross trades at 0.99. -/
def c5Quote : String → Option ℚ := fun p =>
  if p = "BTCUSD" then some 6 else if p = "BTCXBT" then some 2 else none

/-- A Kraken account reporting its Bitcoin balance under the literal key BTC
(rather than the usual XXBT). -/
def c5Fetch : Except PyErr DF := krakenGetBalance c5Quote [("BTC", 2)] "USD" "BTC"

def c5Run : Except PyErr (PfState × IDF) :=
  c5Fetch >>= fun d => getBalance emptyEnv [d] (initState "USD" "BTC") ""

/-- The price_c cell of the (Kraken, BTC) ledger row after aggregation. -/
def c5PriceC : Except PyErr Val :=
  c5Run.map (fun r => getCell r.2.icols ((locGet r.2 [Val.str "Kraken", Val.str "BTC"]).getD []) "price_c")

/-- A built ledger with one significant row of fiat value 5. -/
def c8Balance1 : IDF :=
  ⟨["API", "Asset"], ["Amount", "price_f", "value_f"],
   [([Val.str "Kraken", Val.str "XBT"], [Val.num 1, Val.num 5, Val.num 5])]⟩

/-- The ledger after a rebuild: the same holding now has fiat value 7. -/
def c8Balance2 : IDF :=
  ⟨["API", "Asset"], ["Amount", "price_f", "value_f"],
   [([Val.str "Kraken", Val.str "XBT"], [Val.num 1, Val.num 7, Val.num 7])]⟩

/-- A significant balance containing an Etherscan address holding. -/
def c10Simple : IDF :=
  ⟨["API", "Asset"], ["value_f"],
   [([Val.str "Etherscan", Val.str "ETH"], [Val.num 100])]⟩

/-- The volatility table built from the return matrix: exchange rows only. -/
def c10Vols : VolTable := [(("Kraken", "ETH"), 2)]

def c4Series : List Obs := [⟨0, 5⟩, ⟨1, 5⟩]

def c4Sorted : List Obs := [⟨1, 5⟩, ⟨0, 5⟩]

end CryptoReport

namespace CryptoReport

/-! ## Helper lemmas -/

theorem mapE_ok_iff {α β : Type} (f : α → Except PyErr β) (l : List α) :
    (∃ bs, mapE f l = .ok bs) ↔ ∀ a ∈ l, ∃ b, f a = .ok b := by
  induction l with
  | nil => simp [mapE]
  | cons a t ih =>
    simp only [List.mem_cons]
    constructor
    · rintro ⟨bs, hbs⟩
      cases hfa : f a with
      | error e => simp [mapE, hfa] at hbs
      | ok b =>
        cases hmt : mapE f t with
        | error e => simp [mapE, hfa, hmt] at hbs
        | ok bs2 =>
          intro x hx
          rcases hx with rfl | hx
          · exact ⟨b, hfa⟩
          · exact (ih.mp ⟨bs2, hmt⟩) x hx
    · intro h
      obtain ⟨b, hb⟩ := h a (Or.inl rfl)
      obtain ⟨bs, hbs⟩ := ih.mpr (fun x hx => h x (Or.inr hx))
      exact ⟨b :: bs, by simp [mapE, hb, hbs]⟩

theorem constructAdapter_one_ok_iff (n : String) :
    (∃ a, constructAdapter n 1 = .ok a) ↔
      (n = "Kraken" ∨ n = "Bitfinex" ∨ n = "Etherscan") := by
  unfold constructAdapter
  by_cases h1 : n = "Kraken"
  · simp [h1]
  · by_cases h2 : n = "Bitfinex"
    · simp [h1, h2]
    · by_cases h3 : n = "Etherscan"
      · simp [h1, h2, h3]
      · rw [if_neg h1, if_neg h2, if_neg h3]
        constructor
        · rintro ⟨a, ha⟩
          cases ha
        · rintro (h | h | h) <;> simp_all

theorem constructAdapter_two_ok_iff (n : String) :
    (∃ a, constructAdapter n 2 = .ok a) ↔ n = "Etherscan" := by
  unfold constructAdapter
  by_cases h1 : n = "Kraken"
  · rw [if_pos h1]
    constructor
    · rintro ⟨a, ha⟩
      simp at ha
    · intro h
      exact absurd (h1.symm.trans h) (by decide)
  · by_cases h2 : n = "Bitfinex"
    · rw [if_neg h1, if_pos h2]
      constructor
      · rintro ⟨a, ha⟩
        simp at ha
      · intro h
        exact absurd (h2.symm.trans h) (by decide)
    · by_cases h3 : n = "Etherscan"
      · simp [h1, h2, h3]
      · rw [if_neg h1, if_neg h2, if_neg h3]
        constructor
        · rintro ⟨a, ha⟩
          cases ha
        · intro h
          exact absurd h h3

theorem recognized_construct_one (n : String) (h : pyCapitalize n ∈ API_SOURCES) :
    (∃ a, constructAdapter (pyCapitalize n) 1 = .ok a) ↔ pyCapitalize n ≠ "Blockchain" := by
  rw [constructAdapter_one_ok_iff]
  revert h
  simp only [API_SOURCES, List.mem_cons, List.mem_singleton, List.not_mem_nil, or_false]
  rintro (h | h | h | h) <;> simp [h]

theorem combineAdapters_ok_iff (r1 r2 : Except PyErr (List Adapter)) (F C : String) :
    (∃ p, combineAdapters r1 r2 F C = .ok p) ↔
      (∃ x, r1 = .ok x) ∧ (∃ y, r2 = .ok y) := by
  cases r1 <;> cases r2 <;> simp [combineAdapters]

/-- Construction succeeds exactly when the three assertion gates pass, every
constructed two-element tuple names a class `apis.py` defines (Blockchain has
none), and every constructed three-element tuple names Etherscan — the only
adapter whose constructor accepts two path arguments; Kraken and Bitfinex
inherit the one-path `Api.__init__` and raise TypeError there. -/
theorem portfolioInit_ok_iff (cfg : List SourceSpec) (f c : String) :
    (∃ p, portfolioInit cfg f c = .ok p) ↔
      (pyUpper f ∈ BASE_FIATS ∧ (pyUpper c = "" ∨ pyUpper c ∈ BASE_CRYPTOS) ∧
       (∀ s ∈ cfg, pyCapitalize s.name ∈ API_SOURCES) ∧
       (∀ s ∈ cfg, s.files = 1 → pyCapitalize s.name ≠ "Blockchain") ∧
       (∀ s ∈ cfg, s.files = 2 → pyCapitalize s.name = "Etherscan")) := by
  unfold portfolioInit
  by_cases h1 : pyUpper f ∈ BASE_FIATS
  case neg => simp [h1]
  rw [if_pos h1]
  by_cases h2 : (pyUpper c = "" ∨ pyUpper c ∈ BASE_CRYPTOS)
  case neg =>
    rw [if_neg h2]
    simp [h1, h2]
  rw [if_pos h2]
  by_cases h3 : cfg.all (fun s => decide (pyCapitalize s.name ∈ API_SOURCES)) = true
  case neg =>
    rw [if_neg h3]
    have hrec : ¬ (∀ s ∈ cfg, pyCapitalize s.name ∈ API_SOURCES) := by
      simpa [List.all_eq_true] using h3
    simp [h1, h2, hrec]
  rw [if_pos h3]
  have hrec : ∀ s ∈ cfg, pyCapitalize s.name ∈ API_SOURCES := by
    simpa [List.all_eq_true] using h3
  rw [combineAdapters_ok_iff, mapE_ok_iff, mapE_ok_iff]
  constructor
  · rintro ⟨hA, hB⟩
    refine ⟨h1, h2, hrec, ?_, ?_⟩
    · intro s hs h
      have ha := hA s (by simp [List.mem_filter, hs, h])
      rw [h] at ha
      exact (recognized_construct_one s.name (hrec s hs)).mp ha
    · intro s hs h
      have hb := hB s (by simp [List.mem_filter, hs, h])
      rw [h] at hb
      exact (constructAdapter_two_ok_iff (pyCapitalize s.name)).mp hb
  · rintro ⟨-, -, -, h4, h5⟩
    constructor
    · intro s hs
      have hsf : s ∈ cfg ∧ s.files = 1 := by simpa [List.mem_filter] using hs
      rw [hsf.2]
      exact (recognized_construct_one s.name (hrec s hsf.1)).mpr (h4 s hsf.1 hsf.2)
    · intro s hs
      have hsf : s ∈ cfg ∧ s.files = 2 := by simpa [List.mem_filter] using hs
      rw [hsf.2]
      exact (constructAdapter_two_ok_iff (pyCapitalize s.name)).mpr (h5 s hsf.1 hsf.2)

/-! ## Claim C1 -/

/-- C1.  The reference-resolution invariant fails on the code: with the
reference row (Kraken, ETH, price_f 30) present in the ledger and
base_crypto = BTC ≠ ETH, the try block reaches
`self.balance[(ref_api, crypto)]['price_c']` — a tuple-keyed column lookup
(the `.loc` is missing) that raises KeyError — so the except branch
live-fetches and caches the live price 29, overwriting the copied same-cycle
reference price 30. -/
theorem c1_set_address_prices_overwrites_reference_price :
    c1EthPriceF = .ok (Val.num 29) ∧
    getCell c1Balance.icols ((locGet c1Balance [Val.str "Kraken", Val.str "ETH"]).getD []) "price_f"
      = Val.num 30 ∧
    c1EthPriceF ≠ .ok (Val.num 30) := by
  refine ⟨by with_unfolding_all decide, by with_unfolding_all decide,
    by with_unfolding_all decide⟩

/-! ## Claim C2 -/

/-- C2.  `get_balance` is not idempotent: it never resets `self.balance`, so
the second call outer-merges the fresh fetches into the already-built ledger.
With two exchange sources returning identical data both times, the first call
builds 2 rows with total 27 while the second call succeeds but builds 3
rows — the stale Bitfinex data survives as a row with NaN index keys — and
total 42, double-counting that holding. -/
theorem c2_get_balance_not_idempotent :
    c2Run1.map (fun r => (r.2.irows.length, r.1.totalFiat)) = .ok (2, some 27) ∧
    c2Run2.map (fun r => (r.2.irows.length, r.1.totalFiat)) = .ok (3, some 42) ∧
    c2Run2.map (fun r => r.2.irows.map Prod.fst)
      = .ok [[Val.str "Bitfinex", Val.str "ETH"], [Val.str "Kraken", Val.str "XBT"],
             [Val.na, Val.na]] ∧
    c2Run2.map (fun r => r.2) ≠ c2Run1.map (fun r => r.2) := by
  refine ⟨by with_unfolding_all decide, by with_unfolding_all decide,
    by with_unfolding_all decide, by with_unfolding_all decide⟩

/-! ## Claim C6 -/

/-- C6 counterexample.  The claim says construction succeeds for all supported
inputs, but the recognized source name Blockchain passes the configuration
check and then fails name resolution: `apis.py` defines no Blockchain class. -/
theorem c6_supported_input_fails :
    "Blockchain" ∈ API_SOURCES ∧ "USD" ∈ BASE_FIATS ∧
    portfolioInit [⟨"Blockchain", 1⟩] "USD" "" = .error .nameError := by
  refine ⟨by with_unfolding_all decide, by with_unfolding_all decide,
    by with_unfolding_all decide⟩

/-- C6 amended.  Construction fails with AssertionError (the spec's
ConfigurationError) whenever the upper-cased base_fiat is outside the fiat
set, the upper-cased base_crypto is non-empty and outside the crypto set, or
some capitalized source name is unrecognized; for supported inputs it
succeeds exactly when each two-element source tuple names a class `apis.py`
defines (which excludes the recognized name Blockchain) and each
three-element tuple names Etherscan, the only adapter whose constructor takes
two path arguments — a three-element Kraken or Bitfinex tuple raises
TypeError at the constructor call. -/
theorem c6_init_amended (cfg : List SourceSpec) (f c : String) :
    (∃ p, portfolioInit cfg f c = .ok p) ↔
      (pyUpper f ∈ BASE_FIATS ∧ (pyUpper c = "" ∨ pyUpper c ∈ BASE_CRYPTOS) ∧
       (∀ s ∈ cfg, pyCapitalize s.name ∈ API_SOURCES) ∧
       (∀ s ∈ cfg, s.files = 1 → pyCapitalize s.name ≠ "Blockchain") ∧
       (∀ s ∈ cfg, s.files = 2 → pyCapitalize s.name = "Etherscan")) :=
  portfolioInit_ok_iff cfg f c

theorem c6_init_amended_witness :
    ∃ p, portfolioInit [⟨"Kraken", 1⟩] "USD" "" = .ok p :=
  (c6_init_amended [⟨"Kraken", 1⟩] "USD" "").mpr (by with_unfolding_all decide)

/-! ## Claim C9 -/

/-- C9.  A configuration containing a source whose capitalized name is
Blockchain passes the membership check (Blockchain is in API_SOURCES), yet
`Portfolio` construction can never succeed: `apis.py` defines no Blockchain
class, so resolving the name fails (in the running code the failure already
hits at the `from apis import ... Blockchain` line, for the same reason). -/
theorem c9_blockchain_unconstructible (cfg : List SourceSpec) (f c : String) (s : SourceSpec)
    (hs : s ∈ cfg) (hname : pyCapitalize s.name = "Blockchain")
    (harity : s.files = 1 ∨ s.files = 2) :
    "Blockchain" ∈ API_SOURCES ∧ ∀ p, portfolioInit cfg f c ≠ .ok p := by
  refine ⟨by with_unfolding_all decide, ?_⟩
  intro p hp
  have h := (portfolioInit_ok_iff cfg f c).mp ⟨p, hp⟩
  rcases harity with hf | hf
  · exact (h.2.2.2.1 s hs hf) hname
  · have he := h.2.2.2.2 s hs hf
    rw [hname] at he
    exact absurd he (by decide)

theorem c9_blockchain_unconstructible_witness :
    "Blockchain" ∈ API_SOURCES ∧
    ∀ p, portfolioInit [⟨"Blockchain", 1⟩] "USD" "BTC" ≠ .ok p :=
  c9_blockchain_unconstructible [⟨"Blockchain", 1⟩] "USD" "BTC" ⟨"Blockchain", 1⟩
    (by with_unfolding_all decide) (by with_unfolding_all decide) (Or.inl rfl)

/-! ## Claim C3 -/

theorem insertionSort_eq_multisetSort (l : List ℚ) :
    List.insertionSort (· ≤ ·) l = Multiset.sort (· ≤ ·) (↑l : Multiset ℚ) := by
  have hperm : List.Perm (List.insertionSort (· ≤ ·) l)
      (Multiset.sort (· ≤ ·) (↑l : Multiset ℚ)) :=
    (List.perm_insertionSort _ l).trans
      ((Multiset.coe_eq_coe.mp (Multiset.sort_eq (· ≤ ·) (↑l : Multiset ℚ))).symm)
  exact List.eq_of_perm_of_sorted hperm (List.sorted_insertionSort _ l)
    (Multiset.sort_sorted _ _)

theorem esCount_eq_div (n : ℕ) : esCount n = n / 40 := by
  unfold esCount
  rw [show ((n : ℚ) * (25 / 1000)) = (n : ℚ) / ((40 : ℕ) : ℚ) by push_cast; ring]
  exact Nat.floor_div_eq_div n 40

/-- C3.  The expected shortfall of the code is the mean of the
`int(N * 0.025)` smallest P&L observations — the count truncates (floor, and
equals N divided by 40), the tail is the ascending-sorted front — and for
N below 40 the count is 0 and the result is the mean of the empty set, the
NaN that pandas defines (modelled `none`), not a crash. -/
theorem c3_expected_shortfall_spec (pnl : List ℚ) :
    expectedShortfallCode pnl = listMean (smallestValues pnl (esCount pnl.length)) ∧
    esCount pnl.length = pnl.length / 40 ∧
    (pnl.length < 40 → expectedShortfallCode pnl = none) := by
  have hcount : esCount pnl.length = pnl.length / 40 := esCount_eq_div _
  refine ⟨?_, hcount, ?_⟩
  · unfold expectedShortfallCode smallestValues
    rw [insertionSort_eq_multisetSort]
  · intro hlen
    unfold expectedShortfallCode
    rw [hcount, Nat.div_eq_of_lt hlen]
    simp [listMean]

theorem c3_expected_shortfall_spec_witness :
    expectedShortfallCode [(1 : ℚ), 2, 3] = none :=
  (c3_expected_shortfall_spec [1, 2, 3]).2.2 (by norm_num)

/-! ## Claim C4 -/

theorem pairwise_rel_getLast {α : Type} {R : α → α → Prop} (hrefl : ∀ a, R a a) :
    ∀ (l : List α) (z : α), l.Pairwise R → l.getLast? = some z → ∀ o ∈ l, R o z := by
  intro l
  induction l with
  | nil => intro z _ hz o ho; cases ho
  | cons a t ih =>
    intro z hp hz o ho
    obtain ⟨ha, ht⟩ := List.pairwise_cons.mp hp
    cases t with
    | nil =>
      have haz : a = z := by
        simpa [List.getLast?] using hz
      rcases List.mem_singleton.mp ho with rfl
      exact haz ▸ hrefl o
    | cons b t2 =>
      rw [List.getLast?_cons_cons] at hz
      rcases List.mem_cons.mp ho with rfl | ho2
      · exact ha z (List.mem_of_getLast?_eq_some hz)
      · exact ih z ht hz o ho2

/-- C4 counterexample.  `totals.sort_values()` uses numpy quicksort, which is
not stable, so the code guarantees only some value-sorted permutation of the
P&L series.  With a tie at the minimum on dates 0 and 1, the permutation that
puts date 1 first is a legitimate sort output whose reported worst date is
not the earliest occurrence — the claimed deterministic earliest-date
tie-break is false. -/
theorem c4_tie_break_counterexample :
    isSortValuesOutput c4Series c4Sorted ∧
    firstMinDate c4Series = some 0 ∧
    (c4Sorted.head?).map Obs.date = some 1 ∧
    ¬ (∀ (l l2 : List Obs), isSortValuesOutput l l2 →
        (l2.head?).map Obs.date = firstMinDate l) := by
  have hsort : isSortValuesOutput c4Series c4Sorted := by
    constructor
    · exact List.Perm.swap _ _ _
    · refine List.pairwise_cons.mpr ⟨?_, ?_⟩
      · intro b hb
        rcases List.mem_singleton.mp hb with rfl
        norm_num [c4Sorted]
      · simp
  refine ⟨hsort, by with_unfolding_all decide, by with_unfolding_all decide, ?_⟩
  intro hclaim
  exact absurd (hclaim c4Series c4Sorted hsort) (by with_unfolding_all decide)

/-- C4 amended.  For every output `sort_values` may produce on the P&L
series, the first entry attains the minimum value of the series and the last
entry attains the maximum — worst and best day are a genuine argmin/argmax —
but on ties the reported date is whichever tied date the unstable sort placed
at the end, some date attaining the extremum, not necessarily the earliest. -/
theorem c4_worst_best_amended (l l2 : List Obs) (h : isSortValuesOutput l l2)
    (w z : Obs) (hw : l2.head? = some w) (hz : l2.getLast? = some z) :
    (w ∈ l ∧ ∀ o ∈ l, w.val ≤ o.val) ∧ (z ∈ l ∧ ∀ o ∈ l, o.val ≤ z.val) := by
  obtain ⟨hperm, hpair⟩ := h
  have hzl2 : z ∈ l2 := List.mem_of_getLast?_eq_some hz
  constructor
  · cases l2 with
    | nil => cases hw
    | cons a t =>
      have haw : a = w := by simpa using hw
      subst haw
      refine ⟨hperm.subset (List.mem_cons_self a t), ?_⟩
      intro o ho
      have ho2 : o ∈ a :: t := hperm.mem_iff.mpr ho
      rcases List.mem_cons.mp ho2 with rfl | ho2
      · exact le_refl _
      · exact (List.pairwise_cons.mp hpair).1 o ho2
  · refine ⟨hperm.subset hzl2, ?_⟩
    intro o ho
    have hrefl : ∀ a : Obs, (fun x y : Obs => x.val ≤ y.val) a a := fun a => le_refl a.val
    exact pairwise_rel_getLast hrefl l2 z hpair hz o (hperm.mem_iff.mpr ho)

theorem c4_worst_best_amended_witness :
    ((Obs.mk 1 1 ∈ [Obs.mk 0 3, Obs.mk 1 1] ∧
      ∀ o ∈ [Obs.mk 0 3, Obs.mk 1 1], (Obs.mk 1 1).val ≤ o.val) ∧
     (Obs.mk 0 3 ∈ [Obs.mk 0 3, Obs.mk 1 1] ∧
      ∀ o ∈ [Obs.mk 0 3, Obs.mk 1 1], o.val ≤ (Obs.mk 0 3).val)) :=
  c4_worst_best_amended [Obs.mk 0 3, Obs.mk 1 1] [Obs.mk 1 1, Obs.mk 0 3]
    ⟨List.Perm.swap _ _ _, by
      refine List.pairwise_cons.mpr ⟨?_, by simp⟩
      intro b hb
      rcases List.mem_singleton.mp hb with rfl
      norm_num⟩
    (Obs.mk 1 1) (Obs.mk 0 3) rfl rfl

/-! ## Claim C7 -/

theorem dropLast_drop_comm {α : Type} (l : List α) (k : ℕ) :
    (l.drop k).dropLast = l.dropLast.drop k := by
  rw [List.dropLast_eq_take, List.dropLast_eq_take, List.length_drop, List.drop_take]
  congr 1
  omega

/-- C7.  `ret.iloc[-21:-1]` is exactly the trailing window of the 20 most
recent return observations preceding the latest one: it equals the length-20
suffix of the series with its last point dropped, and the fiat volatility is
the window statistic multiplied by the current value_in_fiat of the holding,
with no annualization factor — this holds for the standard deviation or any
other statistic applied to the window. -/
theorem c7_volatility_window (stdFn : List ℚ → ℚ) (ret : List ℚ) (value_f : ℚ)
    (h : 21 ≤ ret.length) :
    volWindowCode ret = trailingWindowSpec ret ∧
    (volWindowCode ret).length = 20 ∧
    volWindowCode ret <:+ ret.dropLast ∧
    volFiatCode stdFn ret value_f = stdFn (trailingWindowSpec ret) * value_f := by
  have harith : ret.length - 21 = ret.length - 1 - 20 := by omega
  have heq : volWindowCode ret = trailingWindowSpec ret := by
    unfold volWindowCode trailingWindowSpec
    rw [dropLast_drop_comm, List.length_dropLast, harith]
  refine ⟨heq, ?_, ?_, ?_⟩
  · rw [heq]
    unfold trailingWindowSpec
    rw [List.length_drop, List.length_dropLast]
    omega
  · rw [heq]
    unfold trailingWindowSpec
    exact List.drop_suffix _ _
  · unfold volFiatCode volPctCode
    rw [heq]

/-! ## Claim C5 -/

theorem find?_map_keyUpdate (rows : List (List Val × List Val)) (cols : List String)
    (k : List Val) (c : String) (v : Val) :
    List.find? (fun r => decide (r.1 = k))
        (rows.map (fun r => if r.1 = k then (r.1, setCellRow cols r.2 c v) else r))
      = (List.find? (fun r => decide (r.1 = k)) rows).map
          (fun r => (r.1, setCellRow cols r.2 c v)) := by
  induction rows with
  | nil => rfl
  | cons r t ih =>
    by_cases h : r.1 = k
    · simp [List.find?, h]
    · simp [List.find?, h, ih]

theorem locGet_locSetCell_self (b : IDF) (k : List Val) (c : String) (v : Val) :
    locGet (locSetCell b k c v) k
      = (locGet b k).map (fun r => setCellRow b.icols r c v) := by
  unfold locGet locSetCell
  rw [find?_map_keyUpdate]
  cases List.find? (fun r => decide (r.1 = k)) b.irows <;> simp

theorem setCellRow_length (cols : List String) (r : List Val) (c : String) (v : Val) :
    (setCellRow cols r c v).length = r.length := by
  unfold setCellRow
  cases cols.findIdx? (fun x => decide (x = c)) <;> simp

theorem getCell_set_priceC (r : List Val) (v : Val) (hlen : r.length = 3) :
    getCell ["Amount", "price_f", "price_c"]
      (setCellRow ["Amount", "price_f", "price_c"] r "price_c" v) "price_c" = v := by
  unfold getCell setCellRow
  have hidx : (["Amount", "price_f", "price_c"] : List String).findIdx?
      (fun x => decide (x = "price_c")) = some 2 := by with_unfolding_all decide
  rw [hidx]
  simp [List.getD_eq_getElem?_getD, List.getElem?_set_eq_of_lt, hlen]

theorem locGet_some_length (b : IDF) (k : List Val) (r0 : List Val)
    (hlen : ∀ r ∈ b.irows, r.2.length = 3) (hg : locGet b k = some r0) : r0.length = 3 := by
  unfold locGet at hg
  cases hf : List.find? (fun r => decide (r.1 = k)) b.irows with
  | none => rw [hf] at hg; cases hg
  | some pr =>
    rw [hf] at hg
    injection hg with h
    rw [← h]
    exact hlen pr (List.mem_of_find?_eq_some hf)

theorem locSetCell_twice_priceC (b : IDF) (k : List Val) (x v : Val) (row : List Val)
    (hcols : b.icols = ["Amount", "price_f", "price_c"])
    (hlen : ∀ r ∈ b.irows, r.2.length = 3)
    (hrow : locGet (locSetCell (locSetCell b k "price_f" x) k "price_c" v) k = some row) :
    getCell ["Amount", "price_f", "price_c"] row "price_c" = v := by
  have hic1 : (locSetCell b k "price_f" x).icols = b.icols := rfl
  rw [locGet_locSetCell_self, hic1, locGet_locSetCell_self] at hrow
  cases hg : locGet b k with
  | none => rw [hg] at hrow; cases hrow
  | some r0 =>
    rw [hg] at hrow
    simp only [Option.map] at hrow
    injection hrow with h
    have hr0 : r0.length = 3 := locGet_some_length b k r0 hlen hg
    rw [← h, hcols]
    apply getCell_set_priceC
    rw [setCellRow_length]
    exact hr0

theorem krakenGetPrice_self_base (quote : String → Option ℚ) (f m : String) (pr : ℚ × ℚ)
    (hfiat : ¬ (m = "EUR" ∨ m = "USD")) (hs : endsWithDotS m = false) (hne : m ≠ "")
    (hok : krakenGetPrice quote m f m = .ok pr) : pr.2 = 1 := by
  obtain ⟨a, b⟩ := pr
  simp only [krakenGetPrice] at hok
  rw [if_neg hfiat, hs] at hok
  simp only [Bool.false_eq_true, if_false] at hok
  cases hq : quote (m ++ f) with
  | none => simp [hq] at hok
  | some p =>
    simp [hq, hne] at hok
    simp [hok.2.symm]

theorem krakenGetPrice_self (quote : String → Option ℚ) (f m : String) (pr : ℚ × ℚ)
    (hm : m = "XBT" ∨ m = "ETH" ∨ m = "BTC")
    (hok : krakenGetPrice quote m f m = .ok pr) : pr.2 = 1 := by
  have hfiat : ¬ (m = "EUR" ∨ m = "USD") := by rcases hm with rfl | rfl | rfl <;> simp
  have hs : endsWithDotS m = false := by
    rcases hm with rfl | rfl | rfl <;> simp [endsWithDotS]
  have hne : m ≠ "" := by rcases hm with rfl | rfl | rfl <;> simp
  exact krakenGetPrice_self_base quote f m pr hfiat hs hne hok

theorem bitfinexGetPrice_self (quotes : String → Option (List ℚ)) (f m : String) (pr : ℚ × ℚ)
    (hne : m ≠ "") (hok : bitfinexGetPrice quotes m f m = .ok pr) : pr.2 = 1 := by
  obtain ⟨a, b⟩ := pr
  by_cases hfiat : m = "EUR" ∨ m = "USD"
  · simp only [bitfinexGetPrice] at hok
    rw [if_pos hfiat, if_pos hne] at hok
    injection hok with h
    injection h with h1 h2
    exact h2.symm
  · simp only [bitfinexGetPrice] at hok
    rw [if_neg hfiat] at hok
    cases hb : bitfinexFiatPrice quotes m f m with
    | error e => simp [hb, bind, Except.bind] at hok
    | ok p =>
      simp [hb, bind, Except.bind, hne, pure, Except.pure] at hok
      simp [hok.2.symm]

theorem refGetPrice_self (env : Env) (refA f m : String) (pr : ℚ × ℚ)
    (hm : m = "XBT" ∨ m = "ETH" ∨ m = "BTC")
    (hok : refGetPrice env refA m f m = .ok pr) : pr.2 = 1 := by
  unfold refGetPrice at hok
  by_cases h1 : refA = "Kraken"
  · rw [if_pos h1] at hok
    exact krakenGetPrice_self env.krakenQuote f m pr hm hok
  · rw [if_neg h1] at hok
    by_cases h2 : refA = "Bitfinex"
    · rw [if_pos h2] at hok
      have hne : m ≠ "" := by rcases hm with rfl | rfl | rfl <;> simp
      exact bitfinexGetPrice_self env.bitfinexQuotes f m pr hne hok
    · rw [if_neg h2] at hok
      cases hok

theorem setAddressPrices_numeraire (env : Env) (f api crypto refA : String) (b b2 : IDF)
    (hac : (api = "Etherscan" ∧ crypto = "ETH") ∨ (api = "Blockchain" ∧ crypto = "BTC"))
    (hcols : b.icols = ["Amount", "price_f", "price_c"])
    (hlen : ∀ r ∈ b.irows, r.2.length = 3)
    (hok : setAddressPrices env f crypto api refA b = .ok b2) :
    ∀ row, locGet b2 [Val.str api, Val.str crypto] = some row →
      getCell ["Amount", "price_f", "price_c"] row "price_c" = Val.num 1 := by
  intro row hrow
  have hmc : crypto = "XBT" ∨ crypto = "ETH" ∨ crypto = "BTC" := by
    rcases hac with ⟨-, rfl⟩ | ⟨-, rfl⟩
    · exact Or.inr (Or.inl rfl)
    · exact Or.inr (Or.inr rfl)
  have hco : (if api = "Etherscan" then (Except.ok "ETH" : Except PyErr String)
      else if api = "Blockchain" then .ok "BTC" else .error .notImplementedError)
      = .ok crypto := by
    rcases hac with ⟨rfl, rfl⟩ | ⟨rfl, rfl⟩ <;> simp
  simp only [setAddressPrices] at hok
  simp only [hco] at hok
  cases href : locGet b [Val.str refA, Val.str crypto] with
  | some refRow =>
    simp [href] at hok
    rw [← hok] at hrow
    exact locSetCell_twice_priceC b [Val.str api, Val.str crypto] _ _ row hcols hlen hrow
  | none =>
    simp only [href] at hok
    cases hrp : refGetPrice env refA crypto f crypto with
    | error e => simp [hrp] at hok
    | ok pr =>
      simp [hrp] at hok
      rw [← hok] at hrow
      have hone : pr.2 = 1 := refGetPrice_self env refA f crypto pr hmc hrp
      rw [hone] at hrow
      exact locSetCell_twice_priceC b [Val.str api, Val.str crypto] _ _ row hcols hlen hrow

/-- C5 counterexample.  Kraken renames the crypto numeraire BTC to XBT before
its `base_crypto == ticker` check, but leaves asset names as cleaned tickers:
a Kraken balance reported under the literal asset key BTC with base_crypto BTC
prices the row off the BTCXBT market (here quoted 2), so the aggregated ledger
holds a row whose asset equals the configured base_crypto with price_c 2,
not exactly 1. -/
theorem c5_self_price_counterexample :
    c5Run.map (fun r => r.1.base_crypto) = .ok "BTC" ∧
    c5Run.map (fun r => (locGet r.2 [Val.str "Kraken", Val.str "BTC"]).isSome) = .ok true ∧
    c5PriceC = .ok (Val.num 2) ∧
    c5PriceC ≠ .ok (Val.num 1) := by
  refine ⟨by with_unfolding_all decide, by with_unfolding_all decide,
    by with_unfolding_all decide, by with_unfolding_all decide⟩

/-- C5 amended.  The self-referential price invariant holds at the level of
the price-lookup ticker each adapter actually compares: Kraken returns
price_in_crypto exactly 1 whenever the looked-up ticker equals its (XBT-
renamed) numeraire; Bitfinex whenever the ticker equals the numeraire; and
the address resolution pass leaves price_c exactly 1 on the address row
whenever the address asset is the configured base_crypto.  The original
claim fails only for a Kraken holding literally named BTC under base_crypto
BTC, where the renaming breaks the equality the code tests. -/
theorem c5_self_price_amended :
    (∀ (quote : String → Option ℚ) (f m : String) (pr : ℚ × ℚ),
        (m = "XBT" ∨ m = "ETH") →
        krakenGetPrice quote m f m = .ok pr → pr.2 = 1) ∧
    (∀ (quotes : String → Option (List ℚ)) (f m : String) (pr : ℚ × ℚ),
        m ≠ "" → bitfinexGetPrice quotes m f m = .ok pr → pr.2 = 1) ∧
    (∀ (env : Env) (f api crypto refA : String) (b b2 : IDF),
        ((api = "Etherscan" ∧ crypto = "ETH") ∨ (api = "Blockchain" ∧ crypto = "BTC")) →
        b.icols = ["Amount", "price_f", "price_c"] →
        (∀ r ∈ b.irows, r.2.length = 3) →
        setAddressPrices env f crypto api refA b = .ok b2 →
        ∀ row, locGet b2 [Val.str api, Val.str crypto] = some row →
          getCell ["Amount", "price_f", "price_c"] row "price_c" = Val.num 1) := by
  refine ⟨?_, ?_, setAddressPrices_numeraire⟩
  · intro quote f m pr hm hok
    refine krakenGetPrice_self quote f m pr ?_ hok
    rcases hm with h | h
    · exact Or.inl h
    · exact Or.inr (Or.inl h)
  · intro quotes f m pr hne hok
    exact bitfinexGetPrice_self quotes f m pr hne hok

def c5WitnessQuote : String → Option ℚ := fun p => if p = "XBTUSD" then some 6 else none

theorem c5_self_price_amended_witness :
    krakenGetPrice c5WitnessQuote "XBT" "USD" "XBT" = .ok (6, 1) ∧
    ((6 : ℚ), (1 : ℚ)).2 = 1 :=
  ⟨by with_unfolding_all decide,
   c5_self_price_amended.1 c5WitnessQuote "USD" "XBT" (6, 1) (Or.inl rfl)
     (by with_unfolding_all decide)⟩

/-! ## Claim C8 -/

/-- C8 counterexample.  The `simple_balance` cache is never invalidated: after
the underlying ledger is rebuilt (here its single row changes fiat value from
5 to 7), `get_simple_balance` still returns the filter of the OLD ledger, so
the claimed "cached until the underlying ledger is rebuilt" is false, and so
is "returns exactly the rows with value_in_fiat at least the threshold" for
any call after the first. -/
theorem c8_cache_counterexample :
    (getSimpleBalance c8Balance2 (getSimpleBalance c8Balance1 none (1 / 100)).2 (1 / 100)).1
      = filterSignificant c8Balance1 (1 / 100) ∧
    (getSimpleBalance c8Balance2 (getSimpleBalance c8Balance1 none (1 / 100)).2 (1 / 100)).1
      ≠ filterSignificant c8Balance2 (1 / 100) ∧
    ¬ (∀ (b : IDF) (cache : Option IDF) (t : ℚ),
        (getSimpleBalance b cache t).1 = filterSignificant b t) := by
  refine ⟨by with_unfolding_all decide, by with_unfolding_all decide, ?_⟩
  intro h
  have hc := h c8Balance2 (getSimpleBalance c8Balance1 none (1 / 100)).2 (1 / 100)
  revert hc
  with_unfolding_all decide

/-- C8 amended.  On its first call (no cache yet) `get_simple_balance`
returns exactly the rows of the current ledger whose value_f cell is a number
at least the threshold, as a fresh filtered copy — the ledger itself is left
untouched — and stores it; every later call returns the stored frame
unchanged, whatever the current ledger or threshold argument, because the
cache is kept for the lifetime of the Portfolio object. -/
theorem c8_simple_balance_amended (b : IDF) (t : ℚ) :
    (getSimpleBalance b none t).1 = filterSignificant b t ∧
    (getSimpleBalance b none t).2 = some (filterSignificant b t) ∧
    (filterSignificant b t).ikeys = b.ikeys ∧
    (filterSignificant b t).icols = b.icols ∧
    (∀ r, r ∈ (filterSignificant b t).irows ↔ r ∈ b.irows ∧ sigRow b.icols t r = true) ∧
    (∀ cache, getSimpleBalance b (some cache) t = (cache, some cache)) := by
  refine ⟨rfl, rfl, rfl, rfl, ?_, fun cache => rfl⟩
  intro r
  simp [filterSignificant, List.mem_filter]

theorem c8_simple_balance_amended_witness :
    (getSimpleBalance c8Balance1 none (1 / 100)).1 = filterSignificant c8Balance1 (1 / 100) ∧
    (getSimpleBalance c8Balance1 none (1 / 100)).2
      = some (filterSignificant c8Balance1 (1 / 100)) ∧
    (filterSignificant c8Balance1 (1 / 100)).ikeys = c8Balance1.ikeys ∧
    (filterSignificant c8Balance1 (1 / 100)).icols = c8Balance1.icols ∧
    (∀ r, r ∈ (filterSignificant c8Balance1 (1 / 100)).irows ↔
        r ∈ c8Balance1.irows ∧ sigRow c8Balance1.icols (1 / 100) r = true) ∧
    (∀ cache, getSimpleBalance c8Balance1 (some cache) (1 / 100) = (cache, some cache)) :=
  c8_simple_balance_amended c8Balance1 (1 / 100)

/-! ## Claim C10 -/

/-- C10.  The volatility substitution for address holdings (lines 226-229 of
`get_risk`) is keyed by the raw `ref_api` argument, not the stored
`self.ref_api`: when the reference was already set during aggregation and
`get_risk` is called with an empty argument, the stored reference survives
the bookkeeping untouched, yet the substitution looks up the row
(arg, asset) = ("", "ETH"), which no volatility table built from the return
matrix contains, and raises KeyError — while the same substitution keyed by
the stored reference would have succeeded. -/
theorem c10_get_risk_uses_argument (stored : String) (simple : IDF) (vols : VolTable) (q : ℚ)
    (hEth : levelMem simple "Etherscan" = true)
    (hBtc : levelMem simple "Blockchain" = false)
    (hNone : volLookup vols ("", "ETH") = none)
    (hStored : volLookup vols (stored, "ETH") = some q) :
    getRiskRef (some stored) "" = some stored ∧
    getRiskVolsStep (some stored) "" simple vols = .error .keyError ∧
    volsAddressSubst stored (levelMem simple "Etherscan") (levelMem simple "Blockchain") vols
      = .ok (volSet vols ("Etherscan", "ETH") q) := by
  refine ⟨by simp [getRiskRef], ?_, ?_⟩
  · simp [getRiskVolsStep, volsAddressSubst, hEth, hBtc, hNone]
  · simp [volsAddressSubst, hEth, hBtc, hStored, pure, Except.pure, bind, Except.bind]

theorem c10_get_risk_uses_argument_witness :
    getRiskRef (some "Kraken") "" = some "Kraken" ∧
    getRiskVolsStep (some "Kraken") "" c10Simple c10Vols = .error .keyError ∧
    volsAddressSubst "Kraken" (levelMem c10Simple "Etherscan") (levelMem c10Simple "Blockchain")
        c10Vols
      = .ok (volSet c10Vols ("Etherscan", "ETH") 2) :=
  c10_get_risk_uses_argument "Kraken" c10Simple c10Vols 2
    (by with_unfolding_all decide) (by with_unfolding_all decide)
    (by with_unfolding_all decide) (by with_unfolding_all decide)

theorem c7_volatility_window_witness :
    21 ≤ (List.replicate 21 (0 : ℚ)).length ∧
    (volWindowCode (List.replicate 21 (0 : ℚ)) = trailingWindowSpec (List.replicate 21 (0 : ℚ)) ∧
     (volWindowCode (List.replicate 21 (0 : ℚ))).length = 20 ∧
     volWindowCode (List.replicate 21 (0 : ℚ)) <:+ (List.replicate 21 (0 : ℚ)).dropLast ∧
     volFiatCode (fun _ => 1) (List.replicate 21 (0 : ℚ)) 3
       = (fun _ => (1 : ℚ)) (trailingWindowSpec (List.replicate 21 (0 : ℚ))) * 3) :=
  ⟨by simp, c7_volatility_window (fun _ => 1) (List.replicate 21 (0 : ℚ)) 3 (by simp)⟩

end CryptoReport
